import Mathlib

/-!
Verification of the ssh-parameter-manager repository.

The development shallowly embeds the two Python modules the claims are
about:

- parameter_updater.py: the local parameters.yml editor
  (load, merge, save, permission snapshot/restore), and
- ssh_manager.py: the remote update pipeline and the bulk engine
  (bulk_update_parameter, apply_bulk_template, generate_secret).

Python dicts are modelled as insertion-ordered association lists over
String keys: inserting an existing key replaces the value in place,
inserting a fresh key appends at the end, exactly like CPython dicts.
YAML scalar/mapping values are modelled by the inductive type YVal.
Fallible calls are modelled by Option results when the Python function
catches its own errors and by Except when an exception escapes to the
caller and is handled by an enclosing broad except block.
-/

/-- A YAML-like value: scalar string, integer, boolean, null, nested
mapping (insertion ordered), or sequence. -/
inductive YVal where
| s (v : String)
| i (n : Int)
| b (v : Bool)
| null
| map (entries : List (String × YVal))
| list (items : List YVal)

/-- Lookup of a key in an insertion-ordered association list, the model
of Python `d[k]` / `k in d`. -/
def getKey {α : Type} (d : List (String × α)) (k : String) : Option α :=
  match d with
  | [] => none
  | (k', v) :: rest => if k' = k then some v else getKey rest k

/-- Assignment `d[k] = v` on an insertion-ordered association list: an
existing key keeps its position and gets the new value, a fresh key is
appended at the end, exactly like a CPython dict. -/
def setKey {α : Type} (d : List (String × α)) (k : String) (v : α) :
    List (String × α) :=
  match d with
  | [] => [(k, v)]
  | (k', v') :: rest =>
    if k' = k then (k', v) :: rest else (k', v') :: setKey rest k v

/-- The model of Python `dict.update`: fold the new bindings over the
old dict, overwriting existing keys in place and appending new ones. -/
def dictUpdate {α : Type} (a b : List (String × α)) : List (String × α) :=
  b.foldl (fun d kv => setKey d kv.1 kv.2) a

/-- Finds the first colon in a character list and splits there, the
model of Python `target.split(":", 1)` guarded by `":" in target`. -/
def splitCharList : List Char → Option (List Char × List Char)
  | [] => none
  | c :: cs =>
    if c = ':' then some ([], cs)
    else (splitCharList cs).map (fun p => (c :: p.1, p.2))

/-- Splits a `server:customer` target at its first colon; `none` when the
target contains no colon (the malformed-target case). -/
def splitColon (t : String) : Option (String × String) :=
  (splitCharList t.toList).map (fun p => (p.1.asString, p.2.asString))

namespace ParameterUpdater

/-- A parameters.yml document: a top-level YAML mapping, insertion
ordered, as produced by yaml.safe_load of a mapping file. -/
abbrev Doc := List (String × YVal)

/-- Four spaces per indentation level fragment used by the dumper. -/
def indentStr (n : Nat) : String := String.mk (List.replicate n ' ')

mutual

/-- Serializes the entries of a mapping at the given indentation, one
`key: value` line per scalar entry, nested blocks indented by 4, keys in
insertion order (yaml.dump with default_flow_style=False, indent=4,
sort_keys=False; string quoting is elided, serialization being a trusted
library primitive per the spec). -/
def dumpEntries : List (String × YVal) → Nat → String
  | [], _ => ""
  | (k, v) :: rest, ind =>
    indentStr ind ++ k ++ dumpAfterKey v ind ++ dumpEntries rest ind

/-- Serializes the text following a key, colon included. -/
def dumpAfterKey : YVal → Nat → String
  | .map m, ind => ":\n" ++ dumpEntries m (ind + 4)
  | .list l, ind => ":\n" ++ dumpItems l ind
  | .s v, _ => ": " ++ v ++ "\n"
  | .i n, _ => ": " ++ toString n ++ "\n"
  | .b true, _ => ": true\n"
  | .b false, _ => ": false\n"
  | .null, _ => ": null\n"

/-- Serializes sequence items, one `- item` line each. -/
def dumpItems : List YVal → Nat → String
  | [], _ => ""
  | v :: rest, ind =>
    indentStr ind ++ "- " ++ dumpItem v ind ++ dumpItems rest ind

/-- Serializes one sequence item. -/
def dumpItem : YVal → Nat → String
  | .map m, ind => "\n" ++ dumpEntries m (ind + 4)
  | .list l, ind => "\n" ++ dumpItems l (ind + 2)
  | .s v, _ => v ++ "\n"
  | .i n, _ => toString n ++ "\n"
  | .b true, _ => "true\n"
  | .b false, _ => "false\n"
  | .null, _ => "null\n"

end

/-- Serializes a whole document, the model of the yaml.dump call inside
save_yaml_file. -/
def yamlDump (content : Doc) : String := dumpEntries content 0

/-- The fixed Symfony preamble comment written before the dump in
save_yaml_file. -/
def preambleLine : String :=
  "# This file is auto-generated during the composer install\n"

/-- A local filesystem: path to file contents. -/
structure FS where
  files : List (String × String)

/-- The model of save_yaml_file: opens path for writing (truncating),
writes the fixed preamble comment, then the deterministic dump of the
document. -/
def saveYamlFile (fs : FS) (path : String) (content : Doc) : FS :=
  ⟨setKey fs.files path (preambleLine ++ yamlDump content)⟩

/-- The document mutation performed by update_parameters lines 188-192:
synthesize an empty parameters mapping when the key is absent, then
dict.update the parameters mapping with the new bindings. Returns none
when the existing parameters value is not a mapping, in which case the
Python attribute access .update raises and the enclosing except block
takes over. -/
def applyNewParameters (doc : Doc) (newParams : List (String × YVal)) :
    Option Doc :=
  let doc1 :=
    match getKey doc "parameters" with
    | some _ => doc
    | none => setKey doc "parameters" (.map [])
  match getKey doc1 "parameters" with
  | some (YVal.map a) =>
    some (setKey doc1 "parameters" (YVal.map (dictUpdate a newParams)))
  | some _ => none
  | none => none

/-- The environment of one local update_parameters call: the outcome of
each fallible step. A none or false entry means the corresponding Python
call raised (stat, backup copy, yaml load, file write, chown/chmod), a
some entry carries its result. -/
structure LocalEnv where
  fileExists : Bool
  statResult : Option (Nat × Nat × Nat)
  backupOk : Bool
  loadResult : Option Doc
  saveOk : Bool
  restoreOk : Bool

/-- The body of update_parameters inside its try block. The error payload
carries the content that had already been written to the file when the
exception was raised, so the handler's effect on the final state can be
stated: only the permission-restore step can raise after the save. -/
def updateParametersBody (env : LocalEnv) (newParams : List (String × YVal))
    (createBackup : Bool) : Except (Option Doc) (Bool × Option Doc) :=
  if env.fileExists = false then .ok (false, none)
  else match env.statResult with
  | none => .error none
  | some _ =>
    if createBackup && !env.backupOk then .error none
    else match env.loadResult with
    | none => .error none
    | some doc =>
      match applyNewParameters doc newParams with
      | none => .error none
      | some doc2 =>
        if !env.saveOk then .error none
        else if !env.restoreOk then .error (some doc2)
        else .ok (true, some doc2)

/-- The model of update_parameters: the try body wrapped in the broad
except block, which converts any raised exception into a False return
while leaving whatever was already written in place. Returns the boolean
result paired with the content written to the file, none when the save
was never reached. -/
def updateParameters (env : LocalEnv) (newParams : List (String × YVal))
    (createBackup : Bool) : Bool × Option Doc :=
  match updateParametersBody env newParams createBackup with
  | .ok r => r
  | .error w => (false, w)

end ParameterUpdater

namespace SSHManager

/-- Outcome of one remote transfer call (download_file or upload_file):
ok, fails (the call caught its own exception and returned False), or
raises (get_ssh_connection raised before the call's try block, so the
exception escapes to the caller of the transfer helper). -/
inductive StepR where
| ok
| fails
| raises

/-- True exactly on the ok outcome. -/
def StepR.isOk : StepR → Bool
  | .ok => true
  | .fails => false
  | .raises => false

/-- True exactly on the raises outcome. -/
def StepR.isRaises : StepR → Bool
  | .ok => false
  | .fails => false
  | .raises => true

/-- The environment of one update_remote_parameters call: the outcome of
every step of the pipeline. resolve is the parameters_path found under
config servers/customers, none meaning the KeyError of a missing entry;
statResult and backupResult are the Optional results of
get_file_permissions and create_remote_backup, which report their own
designed failures as None; editOk is the boolean result of the local
updater on the staged copy; restoreOk is the boolean result of
restore_file_permissions. -/
structure RemoteEnv where
  resolve : Option String
  statResult : Option (String × String × String)
  backupResult : Option String
  download : StepR
  editOk : Bool
  upload : StepR
  restoreOk : Bool

/-- Result of one pipeline run: the boolean returned to the caller and
whether the temporary staging file still exists after the return. -/
structure RState where
  success : Bool
  tempExists : Bool

/-- The body of update_remote_parameters inside its try block, following
the source line by line. The temporary file is created with delete=False
right before the download; the download-failure branch returns False
without unlinking; the edit-failure and upload-failure branches unlink
then return False; the success path ignores the restore result and
unlinks at step 7. A raising transfer call escapes the body, carrying in
the error payload whether the temporary file existed at that point. -/
def updateRemoteBody (env : RemoteEnv) : Except Bool RState :=
  match env.resolve with
  | none => .error false
  | some _ =>
    let _permissions := env.statResult
    let _backupPath := env.backupResult
    match env.download with
    | .raises => .error true
    | .fails => .ok ⟨false, true⟩
    | .ok =>
      if !env.editOk then .ok ⟨false, false⟩
      else match env.upload with
      | .raises => .error true
      | .fails => .ok ⟨false, false⟩
      | .ok =>
        let _restored :=
          match env.statResult with
          | some _ => some env.restoreOk
          | none => none
        .ok ⟨true, false⟩

/-- The model of update_remote_parameters: the try body wrapped in the
broad except block, which turns any escaped exception into a False
return and performs no cleanup of its own. -/
def updateRemoteParameters (env : RemoteEnv) : RState :=
  match updateRemoteBody env with
  | .ok st => st
  | .error t => ⟨false, t⟩

/-- The alphabet of generate_secret: ascii letters, digits, and the
small punctuation set, in the source's concatenation order. -/
def alphabet : List Char :=
  ("abcdefghijklmnopqrstuvwxyzABCDEFGHIJKLMNOPQRSTUVWXYZ0123456789!@#$%^&*").toList

/-- The model of generate_secret: length independent draws from the
cryptographically secure source, modelled as the stream choice of
successive picks into the 70-character alphabet; pos is the index of the
first stream element this call consumes. -/
def generateSecret (choice : Nat → Fin 70) (pos : Nat) (length : Nat) :
    String :=
  ((List.range length).map
    (fun k => alphabet.getD (choice (pos + k)).val ' ')).asString

/-- True when a template or bulk value is the literal sentinel string
GENERATE_NEW. -/
def isGenerateNew : YVal → Bool
  | .s v => v = "GENERATE_NEW"
  | _ => false

/-- Counts the entries of a parameter set that trigger secret
generation: key secret carrying the sentinel. -/
def gnCount (params : List (String × YVal)) : Nat :=
  params.countP (fun kv => kv.1 = "secret" && isGenerateNew kv.2)

/-- The per-target expansion loop of apply_bulk_template lines 379-381:
walk the copied parameter set and replace every secret/GENERATE_NEW
entry with a fresh generate_secret draw of 32 characters. Returns the
expanded set and the stream position after the consumed draws. -/
def expandParams (choice : Nat → Fin 70) :
    Nat → List (String × YVal) → List (String × YVal) × Nat
  | pos, [] => ([], pos)
  | pos, (k, v) :: rest =>
    if k = "secret" && isGenerateNew v then
      let out := expandParams choice (pos + 32) rest
      ((k, YVal.s (generateSecret choice pos 32)) :: out.1, out.2)
    else
      let out := expandParams choice pos rest
      ((k, v) :: out.1, out.2)

/-- One pipeline invocation recorded by the bulk engine: server name,
customer name, and the parameter set handed to
update_remote_parameters. -/
abbrev Invocation := String × String × List (String × YVal)

/-- The common fan-out loop of the three bulk iterations: walk the
targets in order; a target with a colon is split into server and
customer, given the parameter set built from the current stream
position, and its pipeline verdict is recorded; a target without a colon
is recorded as False with no pipeline invocation. mkParams builds the
per-iteration parameter set from the stream position and adv advances
the position past the draws that build consumed. -/
def fanOutGo (pipe : String → String → List (String × YVal) → Bool)
    (mkParams : Nat → List (String × YVal)) (adv : Nat → Nat) :
    Nat → List (String × Bool) → List Invocation → List String →
    List (String × Bool) × List Invocation
  | _, res, inv, [] => (res, inv)
  | pos, res, inv, t :: ts =>
    match splitColon t with
    | some (sv, cu) =>
      let p := mkParams pos
      fanOutGo pipe mkParams adv (adv pos)
        (setKey res t (pipe sv cu p)) (inv ++ [(sv, cu, p)]) ts
    | none => fanOutGo pipe mkParams adv pos (setKey res t false) inv ts

/-- Result of a bulk call: the per-target results dict and the ordered
list of pipeline invocations that were made. -/
structure BulkOut where
  results : List (String × Bool)
  invocations : List Invocation

/-- The model of bulk_update_parameter: when the value is the sentinel
GENERATE_NEW under the key secret, each well-formed target gets its own
generate_secret draw of 32 characters (each call consuming 32 fresh
stream elements); otherwise every well-formed target gets the same
single-binding parameter set. -/
def bulkUpdateParameter (pipe : String → String → List (String × YVal) → Bool)
    (choice : Nat → Fin 70) (targets : List String)
    (parameterName : String) (parameterValue : YVal) : BulkOut :=
  if isGenerateNew parameterValue && parameterName == "secret" then
    let out := fanOutGo pipe
      (fun pos => [(parameterName, YVal.s (generateSecret choice pos 32))])
      (fun pos => pos + 32) 0 [] [] targets
    ⟨out.1, out.2⟩
  else
    let out := fanOutGo pipe (fun _ => [(parameterName, parameterValue)])
      (fun pos => pos) 0 [] [] targets
    ⟨out.1, out.2⟩

/-- The bulk template table of the configuration: template name to the
parameter set stored under the template's parameters key. -/
structure BulkConfig where
  templates : List (String × List (String × YVal))

/-- Result of apply_bulk_template: the per-target results dict, the
pipeline invocations made, and whether the template-not-found error was
logged. -/
structure TmplOut where
  results : List (String × Bool)
  invocations : List Invocation
  errorLogged : Bool

/-- The model of apply_bulk_template: an absent template name logs the
not-found error and returns the empty dict before any fan-out; otherwise
each well-formed target gets an independent copy of the template
parameter set with every secret/GENERATE_NEW entry expanded to a fresh
per-target draw, and the pipeline verdicts are collected. -/
def applyBulkTemplate (cfg : BulkConfig)
    (pipe : String → String → List (String × YVal) → Bool)
    (choice : Nat → Fin 70) (templateName : String)
    (targets : List String) : TmplOut :=
  match getKey cfg.templates templateName with
  | none => ⟨[], [], true⟩
  | some tparams =>
    let out := fanOutGo pipe
      (fun pos => (expandParams choice pos tparams).1)
      (fun pos => (expandParams choice pos tparams).2) 0 [] [] targets
    ⟨out.1, out.2, false⟩

/-- The invocation list a fan-out produces, in closed form: one entry
per well-formed target, parameters built from the stream position
reached after the previous well-formed targets. -/
def invSpec (mkParams : Nat → List (String × YVal)) (adv : Nat → Nat) :
    Nat → List String → List Invocation
  | _, [] => []
  | pos, t :: ts =>
    match splitColon t with
    | some (sv, cu) => (sv, cu, mkParams pos) :: invSpec mkParams adv (adv pos) ts
    | none => invSpec mkParams adv pos ts

end SSHManager

theorem getKey_setKey_self {α : Type} (d : List (String × α)) (k : String)
    (v : α) : getKey (setKey d k v) k = some v := by
  induction d with
  | nil => simp [setKey, getKey]
  | cons hd tl ih =>
    by_cases h : hd.1 = k
    · simp [setKey, getKey, h]
    · simp [setKey, getKey, h, ih]

theorem getKey_setKey_other {α : Type} (d : List (String × α))
    (k k' : String) (v : α) (h : k ≠ k') :
    getKey (setKey d k v) k' = getKey d k' := by
  induction d with
  | nil => simp [setKey, getKey, h]
  | cons hd tl ih =>
    by_cases hh : hd.1 = k
    · simp [setKey, getKey, hh, h]
    · simp [setKey, getKey, hh, ih]

theorem setKey_setKey_self {α : Type} (d : List (String × α)) (k : String)
    (v v' : α) : setKey (setKey d k v) k v' = setKey d k v' := by
  induction d with
  | nil => simp [setKey]
  | cons hd tl ih =>
    by_cases h : hd.1 = k
    · simp [setKey, h]
    · simp [setKey, h, ih]

theorem getKey_setKey_isSome {α : Type} (d : List (String × α))
    (k k' : String) (v : α) (h : (getKey (setKey d k v) k').isSome) :
    k' = k ∨ (getKey d k').isSome := by
  by_cases hk : k = k'
  · exact Or.inl hk.symm
  · right
    rwa [getKey_setKey_other d k k' v hk] at h

theorem getKey_eq_none_of_not_mem_keys {α : Type} (d : List (String × α))
    (k : String) (h : k ∉ d.map Prod.fst) : getKey d k = none := by
  induction d with
  | nil => simp [getKey]
  | cons hd tl ih =>
    simp only [List.map_cons, List.mem_cons] at h
    push_neg at h
    have h1 : hd.1 ≠ k := fun he => h.1 he.symm
    simp [getKey, h1, ih h.2]

theorem getKey_dictUpdate_not_mem {α : Type} (a b : List (String × α))
    (k : String) (h : getKey b k = none) :
    getKey (dictUpdate a b) k = getKey a k := by
  induction b generalizing a with
  | nil => simp [dictUpdate]
  | cons hd tl ih =>
    simp only [getKey] at h
    by_cases hk : hd.1 = k
    · simp [hk] at h
    · simp only [dictUpdate, List.foldl_cons] at *
      rw [ih (setKey a hd.1 hd.2) (by simpa [hk] using h)]
      exact getKey_setKey_other a hd.1 k hd.2 hk

theorem getKey_dictUpdate_of_mem {α : Type} (a b : List (String × α))
    (k : String) (v : α) (hb : (b.map Prod.fst).Nodup)
    (h : getKey b k = some v) : getKey (dictUpdate a b) k = some v := by
  induction b generalizing a with
  | nil => simp [getKey] at h
  | cons hd tl ih =>
    simp only [List.map_cons, List.nodup_cons] at hb
    simp only [getKey] at h
    by_cases hk : hd.1 = k
    · simp only [hk, if_true] at h
      subst hk
      have htl : getKey tl hd.1 = none :=
        getKey_eq_none_of_not_mem_keys tl hd.1 hb.1
      simp only [dictUpdate, List.foldl_cons]
      rw [show (List.foldl (fun d kv => setKey d kv.1 kv.2)
            (setKey a hd.1 hd.2) tl) = dictUpdate (setKey a hd.1 hd.2) tl
          from rfl]
      rw [getKey_dictUpdate_not_mem _ tl hd.1 htl,
        getKey_setKey_self, h]
    · simp only [hk, if_false] at h
      simp only [dictUpdate, List.foldl_cons]
      exact ih (setKey a hd.1 hd.2) hb.2 h

theorem getKey_dictUpdate_isSome {α : Type} (a b : List (String × α))
    (k : String) (h : (getKey (dictUpdate a b) k).isSome) :
    (getKey a k).isSome ∨ (getKey b k).isSome := by
  induction b generalizing a with
  | nil => exact Or.inl h
  | cons hd tl ih =>
    simp only [dictUpdate, List.foldl_cons] at h
    rcases ih (setKey a hd.1 hd.2) h with h1 | h1
    · rcases getKey_setKey_isSome a hd.1 k hd.2 h1 with h2 | h2
      · right
        simp [getKey, h2.symm]
      · exact Or.inl h2
    · right
      by_cases hk : hd.1 = k
      · simp [getKey, hk]
      · simp [getKey, hk, h1]


namespace SSHManager

theorem fanOutGo_fst_inv_indep (pipe : String → String → List (String × YVal) → Bool)
    (mkParams : Nat → List (String × YVal)) (adv : Nat → Nat)
    (ts : List String) :
    ∀ pos res inv inv',
      (fanOutGo pipe mkParams adv pos res inv ts).1
        = (fanOutGo pipe mkParams adv pos res inv' ts).1 := by
  induction ts with
  | nil => intro pos res inv inv'; rfl
  | cons t ts ih =>
    intro pos res inv inv'
    cases hs : splitColon t with
    | some p => simp only [fanOutGo, hs]; exact ih _ _ _ _
    | none => simp only [fanOutGo, hs]; exact ih _ _ _ _

theorem fanOutGo_preserves_isSome (pipe : String → String → List (String × YVal) → Bool)
    (mkParams : Nat → List (String × YVal)) (adv : Nat → Nat)
    (ts : List String) (t : String) :
    ∀ pos res inv, (getKey res t).isSome →
      (getKey (fanOutGo pipe mkParams adv pos res inv ts).1 t).isSome := by
  induction ts with
  | nil => intro pos res inv h; exact h
  | cons t' ts ih =>
    intro pos res inv h
    have hpres : ∀ (v : Bool), (getKey (setKey res t' v) t).isSome := by
      intro v
      by_cases ht : t' = t
      · subst ht; rw [getKey_setKey_self]; rfl
      · rw [getKey_setKey_other res t' t v ht]; exact h
    cases hs : splitColon t' with
    | some p =>
      simp only [fanOutGo, hs]
      exact ih _ _ _ (hpres _)
    | none =>
      simp only [fanOutGo, hs]
      exact ih _ _ _ (hpres _)

theorem fanOutGo_coverage (pipe : String → String → List (String × YVal) → Bool)
    (mkParams : Nat → List (String × YVal)) (adv : Nat → Nat)
    (ts : List String) (t : String) (hmem : t ∈ ts) :
    ∀ pos res inv,
      (getKey (fanOutGo pipe mkParams adv pos res inv ts).1 t).isSome := by
  induction ts with
  | nil => cases hmem
  | cons t' ts ih =>
    intro pos res inv
    rcases List.mem_cons.mp hmem with he | htail
    · subst he
      have hsome : ∀ (v : Bool), (getKey (setKey res t v) t).isSome := by
        intro v; rw [getKey_setKey_self]; rfl
      cases hs : splitColon t with
      | some p =>
        simp only [fanOutGo, hs]
        exact fanOutGo_preserves_isSome _ _ _ _ _ _ _ _ (hsome _)
      | none =>
        simp only [fanOutGo, hs]
        exact fanOutGo_preserves_isSome _ _ _ _ _ _ _ _ (hsome _)
    · cases hs : splitColon t' with
      | some p => simp only [fanOutGo, hs]; exact ih htail _ _ _
      | none => simp only [fanOutGo, hs]; exact ih htail _ _ _

theorem fanOutGo_malformed (pipe : String → String → List (String × YVal) → Bool)
    (mkParams : Nat → List (String × YVal)) (adv : Nat → Nat)
    (ts : List String) (t : String) (hmal : splitColon t = none) :
    ∀ pos res inv, (t ∈ ts ∨ getKey res t = some false) →
      getKey (fanOutGo pipe mkParams adv pos res inv ts).1 t = some false := by
  induction ts with
  | nil =>
    intro pos res inv h
    rcases h with h | h
    · cases h
    · exact h
  | cons t' ts ih =>
    intro pos res inv h
    by_cases ht : t' = t
    · subst ht
      simp only [fanOutGo, hmal]
      exact ih _ _ _ (Or.inr (getKey_setKey_self res t' false))
    · have hnext : ∀ (v : Bool), t ∈ ts ∨ getKey (setKey res t' v) t = some false := by
        intro v
        rcases h with h | h
        · rcases List.mem_cons.mp h with he | htail
          · exact absurd he.symm ht
          · exact Or.inl htail
        · right
          rw [getKey_setKey_other res t' t v ht]
          exact h
      cases hs : splitColon t' with
      | some p => simp only [fanOutGo, hs]; exact ih _ _ _ (hnext _)
      | none => simp only [fanOutGo, hs]; exact ih _ _ _ (hnext _)

theorem fanOutGo_snd_eq (pipe : String → String → List (String × YVal) → Bool)
    (mkParams : Nat → List (String × YVal)) (adv : Nat → Nat)
    (ts : List String) :
    ∀ pos res inv, (fanOutGo pipe mkParams adv pos res inv ts).2
      = inv ++ invSpec mkParams adv pos ts := by
  induction ts with
  | nil => intro pos res inv; simp [fanOutGo, invSpec]
  | cons t ts ih =>
    intro pos res inv
    cases hs : splitColon t with
    | some p =>
      simp only [fanOutGo, hs, invSpec, ih, List.append_assoc,
        List.singleton_append]
    | none => simp only [fanOutGo, hs, invSpec, ih]

theorem invSpec_length (mkParams : Nat → List (String × YVal))
    (adv : Nat → Nat) (ts : List String) :
    ∀ pos, (invSpec mkParams adv pos ts).length
      = ts.countP (fun t => (splitColon t).isSome) := by
  induction ts with
  | nil => intro pos; simp [invSpec]
  | cons t ts ih =>
    intro pos
    cases hs : splitColon t with
    | some p =>
      simp only [invSpec, hs, List.length_cons, ih, List.countP_cons]
      simp [hs]
    | none =>
      simp only [invSpec, hs, ih, List.countP_cons]
      simp [hs]

theorem invSpec_get? (mkParams : Nat → List (String × YVal))
    (adv : Nat → Nat) (ts : List String) :
    ∀ pos i, i < (invSpec mkParams adv pos ts).length →
      ∃ t sv cu, t ∈ ts ∧ splitColon t = some (sv, cu) ∧
        (invSpec mkParams adv pos ts).get? i
          = some (sv, cu, mkParams (adv^[i] pos)) := by
  induction ts with
  | nil => intro pos i hi; simp [invSpec] at hi
  | cons t ts ih =>
    intro pos i hi
    cases hs : splitColon t with
    | some p =>
      simp only [invSpec, hs] at hi ⊢
      match i with
      | 0 =>
        exact ⟨t, p.1, p.2, List.mem_cons_self t ts, by simpa using hs, by
          simp [Function.iterate_zero, List.get?]⟩
      | Nat.succ n =>
        obtain ⟨t', sv, cu, hmem, hsp, hget⟩ :=
          ih (adv pos) n (by simpa using Nat.lt_of_succ_lt_succ hi)
        refine ⟨t', sv, cu, List.mem_cons_of_mem t hmem, hsp, ?_⟩
        simp only [List.get?]
        simpa [Function.iterate_succ_apply] using hget
    | none =>
      simp only [invSpec, hs] at hi ⊢
      obtain ⟨t', sv, cu, hmem, hsp, hget⟩ := ih pos i hi
      exact ⟨t', sv, cu, List.mem_cons_of_mem t hmem, hsp, hget⟩

theorem fanOutGo_indep (pipe pipe' : String → String → List (String × YVal) → Bool)
    (mkParams : Nat → List (String × YVal)) (adv : Nat → Nat)
    (t sv cu : String) (hsp : splitColon t = some (sv, cu))
    (hagree : ∀ p, pipe sv cu p = pipe' sv cu p) (ts : List String) :
    ∀ pos res1 res2 inv1 inv2, getKey res1 t = getKey res2 t →
      getKey (fanOutGo pipe mkParams adv pos res1 inv1 ts).1 t
        = getKey (fanOutGo pipe' mkParams adv pos res2 inv2 ts).1 t := by
  induction ts with
  | nil => intro pos res1 res2 inv1 inv2 h; exact h
  | cons t' ts ih =>
    intro pos res1 res2 inv1 inv2 h
    by_cases ht : t' = t
    · subst ht
      simp only [fanOutGo, hsp]
      refine ih _ _ _ _ _ ?_
      rw [getKey_setKey_self, getKey_setKey_self, hagree]
    · cases hs : splitColon t' with
      | some p =>
        simp only [fanOutGo, hs]
        refine ih _ _ _ _ _ ?_
        rw [getKey_setKey_other res1 t' t _ ht,
          getKey_setKey_other res2 t' t _ ht]
        exact h
      | none =>
        simp only [fanOutGo, hs]
        refine ih _ _ _ _ _ ?_
        rw [getKey_setKey_other res1 t' t _ ht,
          getKey_setKey_other res2 t' t _ ht]
        exact h

theorem expandParams_snd (choice : Nat → Fin 70)
    (ps : List (String × YVal)) :
    ∀ pos, (expandParams choice pos ps).2 = pos + 32 * gnCount ps := by
  induction ps with
  | nil => intro pos; simp [expandParams, gnCount]
  | cons hd tl ih =>
    intro pos
    by_cases hc : hd.1 = "secret" && isGenerateNew hd.2
    · obtain ⟨k, v⟩ := hd
      simp only [expandParams, gnCount, List.countP_cons]
      simp only at hc
      simp [hc, ih, gnCount, Nat.mul_add, Nat.mul_succ]
      omega
    · obtain ⟨k, v⟩ := hd
      simp only [expandParams, gnCount, List.countP_cons]
      simp only at hc
      simp [hc, ih, gnCount]

theorem expandParams_secret (choice : Nat → Fin 70)
    (ps : List (String × YVal)) :
    ∀ pos, getKey ps "secret" = some (YVal.s "GENERATE_NEW") →
      getKey (expandParams choice pos ps).1 "secret"
        = some (YVal.s (generateSecret choice pos 32)) := by
  induction ps with
  | nil => intro pos h; simp [getKey] at h
  | cons hd tl ih =>
    intro pos h
    obtain ⟨k, v⟩ := hd
    by_cases hk : k = "secret"
    · subst hk
      simp only [getKey, if_pos rfl] at h
      have hv : v = YVal.s "GENERATE_NEW" := by
        injection h
      subst hv
      simp [expandParams, isGenerateNew, getKey]
    · simp only [getKey, if_neg hk] at h
      have hc : (k = "secret" && isGenerateNew v) = false := by
        simp [hk]
      simp only [expandParams, hc, Bool.false_eq_true, if_false]
      simp only [getKey, if_neg hk]
      exact ih pos h

theorem iterate_add_const (d : Nat) :
    ∀ (n x : Nat), (fun p => p + d)^[n] x = x + d * n := by
  intro n
  induction n with
  | zero => intro x; simp
  | succ m ih =>
    intro x
    rw [Function.iterate_succ_apply, ih]
    ring

end SSHManager

namespace ParameterUpdater

theorem applyNewParameters_of_map (doc : Doc) (b a : List (String × YVal))
    (h : getKey doc "parameters" = some (YVal.map a)) :
    applyNewParameters doc b
      = some (setKey doc "parameters" (YVal.map (dictUpdate a b))) := by
  simp only [applyNewParameters, h]

theorem applyNewParameters_of_none (doc : Doc) (b : List (String × YVal))
    (h : getKey doc "parameters" = none) :
    applyNewParameters doc b
      = some (setKey (setKey doc "parameters" (YVal.map []))
          "parameters" (YVal.map (dictUpdate [] b))) := by
  simp only [applyNewParameters, h, getKey_setKey_self]

end ParameterUpdater

/-- C2: merging a new-parameters map B through update_parameters yields
a parameters map equal to the existing map A with every key of B
overwritten or added, containing no key outside the union of the key
sets, and a nested mapping value under a key of B replaces the old value
wholesale (the lookup of such a key returns exactly B's value). -/
theorem spec_c2_merge (doc : ParameterUpdater.Doc)
    (a b : List (String × YVal))
    (hdoc : getKey doc "parameters" = some (YVal.map a))
    (hb : (b.map Prod.fst).Nodup) :
    ParameterUpdater.applyNewParameters doc b
      = some (setKey doc "parameters" (YVal.map (dictUpdate a b)))
    ∧ getKey (setKey doc "parameters" (YVal.map (dictUpdate a b)))
        "parameters" = some (YVal.map (dictUpdate a b))
    ∧ (∀ k v, getKey b k = some v → getKey (dictUpdate a b) k = some v)
    ∧ (∀ k, getKey b k = none → getKey (dictUpdate a b) k = getKey a k)
    ∧ (∀ k, (getKey (dictUpdate a b) k).isSome →
        (getKey a k).isSome ∨ (getKey b k).isSome) := by
  refine ⟨ParameterUpdater.applyNewParameters_of_map doc b a hdoc,
    getKey_setKey_self doc "parameters" _, ?_, ?_, ?_⟩
  · intro k v hkv
    exact getKey_dictUpdate_of_mem a b k v hb hkv
  · intro k hk
    exact getKey_dictUpdate_not_mem a b k hk
  · intro k hk
    exact getKey_dictUpdate_isSome a b k hk

/-- C2 witness: a concrete merge where the nested mapping under key n is
replaced wholesale rather than deep-merged. -/
theorem spec_c2_merge_witness :
    getKey (dictUpdate [("x", YVal.s "1"), ("n", YVal.map [("a", YVal.s "b")])]
      [("n", YVal.map [("c", YVal.s "d")]), ("y", YVal.s "2")]) "n"
      = some (YVal.map [("c", YVal.s "d")]) := by
  have h := spec_c2_merge
    [("parameters", YVal.map [("x", YVal.s "1"), ("n", YVal.map [("a", YVal.s "b")])])]
    [("x", YVal.s "1"), ("n", YVal.map [("a", YVal.s "b")])]
    [("n", YVal.map [("c", YVal.s "d")]), ("y", YVal.s "2")]
    rfl (by decide)
  exact h.2.2.1 "n" (YVal.map [("c", YVal.s "d")]) rfl

/-- C7: the document mutation of update_parameters preserves every
top-level key other than parameters together with its value: looking any
other key up in the written document gives exactly what the loaded
document held. -/
theorem spec_c7_frame (doc : ParameterUpdater.Doc)
    (b : List (String × YVal)) (doc2 : ParameterUpdater.Doc)
    (h : ParameterUpdater.applyNewParameters doc b = some doc2)
    (k : String) (hk : k ≠ "parameters") :
    getKey doc2 k = getKey doc k := by
  cases hp : getKey doc "parameters" with
  | none =>
    rw [ParameterUpdater.applyNewParameters_of_none doc b hp] at h
    injection h with h2
    subst h2
    rw [getKey_setKey_other _ _ _ _ (Ne.symm hk),
      getKey_setKey_other _ _ _ _ (Ne.symm hk)]
  | some val =>
    cases val with
    | map a =>
      rw [ParameterUpdater.applyNewParameters_of_map doc b a hp] at h
      injection h with h2
      subst h2
      rw [getKey_setKey_other _ _ _ _ (Ne.symm hk)]
    | s v => simp [ParameterUpdater.applyNewParameters, hp] at h
    | i n => simp [ParameterUpdater.applyNewParameters, hp] at h
    | b bv => simp [ParameterUpdater.applyNewParameters, hp] at h
    | null => simp [ParameterUpdater.applyNewParameters, hp] at h
    | list l => simp [ParameterUpdater.applyNewParameters, hp] at h

/-- C7 witness: an unrelated top-level key imports survives a concrete
parameters merge unchanged. -/
theorem spec_c7_frame_witness :
    getKey [("parameters", YVal.map [("x", YVal.s "1")]),
        ("imports", YVal.s "config.yml")] "imports"
      = getKey [("parameters", YVal.map []),
        ("imports", YVal.s "config.yml")] "imports" :=
  spec_c7_frame
    [("parameters", YVal.map []), ("imports", YVal.s "config.yml")]
    [("x", YVal.s "1")]
    [("parameters", YVal.map [("x", YVal.s "1")]),
      ("imports", YVal.s "config.yml")]
    rfl "imports" (by decide)

/-- C8: save_yaml_file is deterministic and idempotent: saving the same
document twice leaves the filesystem exactly as one save does, and the
bytes written are always the fixed preamble comment followed by the
deterministic insertion-ordered dump of the document, independent of the
previous file contents. -/
theorem spec_c8_idempotent_save (fs : ParameterUpdater.FS) (path : String)
    (content : ParameterUpdater.Doc) :
    ParameterUpdater.saveYamlFile
        (ParameterUpdater.saveYamlFile fs path content) path content
      = ParameterUpdater.saveYamlFile fs path content
    ∧ getKey (ParameterUpdater.saveYamlFile fs path content).files path
      = some (ParameterUpdater.preambleLine
          ++ ParameterUpdater.yamlDump content) := by
  constructor
  · simp [ParameterUpdater.saveYamlFile, setKey_setKey_self]
  · simp [ParameterUpdater.saveYamlFile, getKey_setKey_self]

/-- C4 (amended): in the remote pipeline a permission-restore failure is
warning-only — the outcome of update_remote_parameters is entirely
independent of the restore result, so success is still returned and the
uploaded content kept; in the local single-file path the written content
is likewise not rolled back, but update_parameters returns False when
the permission restore raises after a successful save. -/
theorem spec_c4_restore_policy (env : SSHManager.RemoteEnv) (r : Bool)
    (lenv : ParameterUpdater.LocalEnv) (b : List (String × YVal))
    (cb : Bool) (doc doc2 : ParameterUpdater.Doc)
    (hfe : lenv.fileExists = true)
    (hstat : lenv.statResult.isSome)
    (hbk : cb = true → lenv.backupOk = true)
    (hload : lenv.loadResult = some doc)
    (happ : ParameterUpdater.applyNewParameters doc b = some doc2)
    (hsave : lenv.saveOk = true)
    (hrest : lenv.restoreOk = false) :
    SSHManager.updateRemoteParameters { env with restoreOk := r }
      = SSHManager.updateRemoteParameters env
    ∧ ParameterUpdater.updateParameters lenv b cb = (false, some doc2) := by
  constructor
  · obtain ⟨re, st, bk, dl, ed, up, ro⟩ := env
    cases re <;> cases dl <;> cases ed <;> cases up <;> rfl
  · cases hst : lenv.statResult with
    | none => rw [hst] at hstat; cases hstat
    | some pr =>
      have hbk2 : (cb && !lenv.backupOk) = false := by
        cases hc : cb
        · rfl
        · simp [hbk hc]
      simp [ParameterUpdater.updateParameters,
        ParameterUpdater.updateParametersBody, hfe, hst, hbk2, hload,
        happ, hsave, hrest]

/-- C4 counterexample: a concrete local update where the save succeeded
and the subsequent permission restore failed; update_parameters returns
False (not success as the claim states), while the merged content stays
written. -/
theorem spec_c4_counterexample :
    ParameterUpdater.updateParameters
      ⟨true, some (420, 33, 33), true,
        some [("parameters", YVal.map [("secret", YVal.s "old")])],
        true, false⟩
      [("secret", YVal.s "new")] true
      = (false, some [("parameters", YVal.map [("secret", YVal.s "new")])]) := rfl

/-- C4 witness: the amended theorem applied at the counterexample's
environment and at a concrete remote environment. -/
theorem spec_c4_restore_policy_witness :
    SSHManager.updateRemoteParameters
      ⟨some "/app/parameters.yml", some ("644", "www", "www"),
        some "/tmp/b", SSHManager.StepR.ok, true, SSHManager.StepR.ok, false⟩
      = SSHManager.updateRemoteParameters
        ⟨some "/app/parameters.yml", some ("644", "www", "www"),
          some "/tmp/b", SSHManager.StepR.ok, true, SSHManager.StepR.ok, true⟩
    ∧ ParameterUpdater.updateParameters
        ⟨true, some (420, 33, 33), true,
          some [("parameters", YVal.map [("secret", YVal.s "old")])],
          true, false⟩
        [("secret", YVal.s "new")] true
      = (false, some [("parameters", YVal.map [("secret", YVal.s "new")])]) :=
  spec_c4_restore_policy
    ⟨some "/app/parameters.yml", some ("644", "www", "www"),
      some "/tmp/b", SSHManager.StepR.ok, true, SSHManager.StepR.ok, true⟩
    false
    ⟨true, some (420, 33, 33), true,
      some [("parameters", YVal.map [("secret", YVal.s "old")])],
      true, false⟩
    [("secret", YVal.s "new")] true
    [("parameters", YVal.map [("secret", YVal.s "old")])]
    [("parameters", YVal.map [("secret", YVal.s "new")])]
    rfl rfl (fun _ => rfl) rfl rfl rfl rfl

/-- C10: neither update function propagates an exception: whenever the
try body of update_parameters or of update_remote_parameters raises, the
enclosing broad except block converts the error into a boolean False
return, leaving whatever file state the body had reached. -/
theorem spec_c10_no_exception (lenv : ParameterUpdater.LocalEnv)
    (b : List (String × YVal)) (cb : Bool)
    (w : Option ParameterUpdater.Doc)
    (renv : SSHManager.RemoteEnv) (t : Bool)
    (hl : ParameterUpdater.updateParametersBody lenv b cb = Except.error w)
    (hr : SSHManager.updateRemoteBody renv = Except.error t) :
    ParameterUpdater.updateParameters lenv b cb = (false, w)
    ∧ SSHManager.updateRemoteParameters renv
      = { success := false, tempExists := t } := by
  constructor
  · simp [ParameterUpdater.updateParameters, hl]
  · simp [SSHManager.updateRemoteParameters, hr]

/-- C10 witness: a stat failure in the local path and a missing
configuration entry in the remote path both come back as plain False. -/
theorem spec_c10_no_exception_witness :
    ParameterUpdater.updateParameters
      ⟨true, none, true, none, true, true⟩ [] true = (false, none)
    ∧ SSHManager.updateRemoteParameters
      ⟨none, none, none, SSHManager.StepR.ok, true, SSHManager.StepR.ok, true⟩
      = { success := false, tempExists := false } :=
  spec_c10_no_exception ⟨true, none, true, none, true, true⟩ [] true none
    ⟨none, none, none, SSHManager.StepR.ok, true, SSHManager.StepR.ok, true⟩
    false rfl rfl

/-- C3: the pipeline result is a failure exactly when target resolution,
download, local edit, or upload fails, and the result is unchanged under
any outcome of the permission snapshot, the remote backup, and the
permission restore. -/
theorem spec_c3_step_policy (env : SSHManager.RemoteEnv) :
    (SSHManager.updateRemoteParameters env).success
      = (env.resolve.isSome && env.download.isOk
          && env.editOk && env.upload.isOk)
    ∧ ∀ (ps : Option (String × String × String)) (bs : Option String)
        (r : Bool),
        (SSHManager.updateRemoteParameters
          { env with
            statResult := ps
            backupResult := bs
            restoreOk := r }).success
          = (SSHManager.updateRemoteParameters env).success := by
  obtain ⟨re, st, bk, dl, ed, up, ro⟩ := env
  constructor
  · cases re <;> cases dl <;> cases ed <;> cases up <;> rfl
  · intro ps bs r
    cases re <;> cases dl <;> cases ed <;> cases up <;> rfl

/-- C1: evaluating the pipeline at the download-failure exit path. The
download step fails, update_remote_parameters returns False, and the
temporary staging file still exists after the return: the code reaches
the return at line 271 without the os.unlink that the edit-failure and
upload-failure branches perform, violating the cleanup guarantee. -/
theorem spec_c1_cleanup_violation :
    SSHManager.updateRemoteParameters
      ⟨some "/var/www/app/config/parameters.yml",
        some ("644", "www-data", "www-data"), some "/tmp/symfony_backups/b",
        SSHManager.StepR.fails, true, SSHManager.StepR.ok, true⟩
      = { success := false, tempExists := true } := rfl

/-- C5: apply_bulk_template with a template name absent from the
configured bulk_templates signals the template-not-found error and
returns the empty results dict before any per-target pipeline
invocation. -/
theorem spec_c5_template_not_found (cfg : SSHManager.BulkConfig)
    (pipe : String → String → List (String × YVal) → Bool)
    (choice : Nat → Fin 70) (templateName : String)
    (targets : List String)
    (h : getKey cfg.templates templateName = none) :
    SSHManager.applyBulkTemplate cfg pipe choice templateName targets
      = { results := [], invocations := [], errorLogged := true } := by
  simp [SSHManager.applyBulkTemplate, h]

/-- C5 witness: a concrete missing template aborts the whole bulk call
with zero invocations. -/
theorem spec_c5_template_not_found_witness :
    SSHManager.applyBulkTemplate ⟨[]⟩ (fun _ _ _ => true)
      (fun _ => (0 : Fin 70)) "missing" ["a:b"]
      = { results := [], invocations := [], errorLogged := true } :=
  spec_c5_template_not_found ⟨[]⟩ (fun _ _ _ => true)
    (fun _ => (0 : Fin 70)) "missing" ["a:b"] rfl

/-- C9 counterexample: a bulk call through apply_bulk_template whose
template name is absent returns a results dict with no verdict for the
input target prod:custA, so the results map does not contain a verdict
for every input target of every bulk operation. -/
theorem spec_c9_counterexample :
    getKey (SSHManager.applyBulkTemplate ⟨[]⟩ (fun _ _ _ => true)
      (fun _ => (0 : Fin 70)) "db_migration" ["prod:custA"]).results
      "prod:custA" = none := rfl

namespace SSHManager

theorem fanOut_claims (pipe pipe' : String → String → List (String × YVal) → Bool)
    (mkParams : Nat → List (String × YVal)) (adv : Nat → Nat)
    (targets : List String) (tAny tBad tGood sv cu : String)
    (hmem : tAny ∈ targets) (hbadmem : tBad ∈ targets)
    (hbad : splitColon tBad = none)
    (hgood : splitColon tGood = some (sv, cu))
    (hagree : ∀ p, pipe sv cu p = pipe' sv cu p) :
    (getKey (fanOutGo pipe mkParams adv 0 [] [] targets).1 tAny).isSome
    ∧ getKey (fanOutGo pipe mkParams adv 0 [] [] targets).1 tBad = some false
    ∧ (fanOutGo pipe mkParams adv 0 [] [] targets).2.length
        = targets.countP (fun t => (splitColon t).isSome)
    ∧ getKey (fanOutGo pipe mkParams adv 0 [] [] targets).1 tGood
        = getKey (fanOutGo pipe' mkParams adv 0 [] [] targets).1 tGood := by
  refine ⟨?_, ?_, ?_, ?_⟩
  · exact fanOutGo_coverage pipe mkParams adv targets tAny hmem 0 [] []
  · exact fanOutGo_malformed pipe mkParams adv targets tBad hbad 0 [] []
      (Or.inl hbadmem)
  · rw [fanOutGo_snd_eq]
    simp [invSpec_length]
  · exact fanOutGo_indep pipe pipe' mkParams adv tGood sv cu hgood hagree
      targets 0 [] [] [] [] rfl

end SSHManager

/-- C9 (amended): for bulk_update_parameter always, and for
apply_bulk_template whenever the named template exists (an absent
template aborts the whole call with an empty results dict, per C5), the
results dict contains a verdict for every input target; a target without
a colon is recorded as failed and contributes no pipeline invocation
(the invocation count equals the count of well-formed targets); and a
target's verdict depends only on the pipeline's behaviour on that
target, so one target's failure never prevents or changes another's
verdict. -/
theorem spec_c9_fanout
    (pipe pipe' : String → String → List (String × YVal) → Bool)
    (choice : Nat → Fin 70) (targets : List String)
    (name : String) (value : YVal)
    (cfg : SSHManager.BulkConfig) (templateName : String)
    (tparams : List (String × YVal))
    (tAny tBad tGood sv cu : String)
    (hmem : tAny ∈ targets) (hbadmem : tBad ∈ targets)
    (hbad : splitColon tBad = none)
    (hgood : splitColon tGood = some (sv, cu))
    (hagree : ∀ p, pipe sv cu p = pipe' sv cu p)
    (htmpl : getKey cfg.templates templateName = some tparams) :
    ((getKey (SSHManager.bulkUpdateParameter pipe choice targets
        name value).results tAny).isSome
    ∧ getKey (SSHManager.bulkUpdateParameter pipe choice targets
        name value).results tBad = some false
    ∧ (SSHManager.bulkUpdateParameter pipe choice targets
        name value).invocations.length
      = targets.countP (fun t => (splitColon t).isSome)
    ∧ getKey (SSHManager.bulkUpdateParameter pipe choice targets
        name value).results tGood
      = getKey (SSHManager.bulkUpdateParameter pipe' choice targets
        name value).results tGood)
    ∧ ((getKey (SSHManager.applyBulkTemplate cfg pipe choice templateName
        targets).results tAny).isSome
    ∧ getKey (SSHManager.applyBulkTemplate cfg pipe choice templateName
        targets).results tBad = some false
    ∧ (SSHManager.applyBulkTemplate cfg pipe choice templateName
        targets).invocations.length
      = targets.countP (fun t => (splitColon t).isSome)
    ∧ getKey (SSHManager.applyBulkTemplate cfg pipe choice templateName
        targets).results tGood
      = getKey (SSHManager.applyBulkTemplate cfg pipe' choice templateName
        targets).results tGood) := by
  constructor
  · by_cases hmode :
      (SSHManager.isGenerateNew value && name == "secret") = true
    · simp only [SSHManager.bulkUpdateParameter, hmode, if_true]
      exact SSHManager.fanOut_claims pipe pipe' _ _ targets tAny tBad tGood
        sv cu hmem hbadmem hbad hgood hagree
    · simp only [SSHManager.bulkUpdateParameter, hmode, if_false]
      exact SSHManager.fanOut_claims pipe pipe' _ _ targets tAny tBad tGood
        sv cu hmem hbadmem hbad hgood hagree
  · simp only [SSHManager.applyBulkTemplate, htmpl]
    exact SSHManager.fanOut_claims pipe pipe' _ _ targets tAny tBad tGood
      sv cu hmem hbadmem hbad hgood hagree

/-- C9 witness: a concrete three-target bulk run with one malformed
target, instantiating every part of the fan-out theorem. -/
theorem spec_c9_fanout_witness :
    ((getKey (SSHManager.bulkUpdateParameter (fun _ _ _ => true)
        (fun _ => (0 : Fin 70)) ["a:x", "bad", "a:y"] "database_host"
        (YVal.s "db1")).results "a:y").isSome
    ∧ getKey (SSHManager.bulkUpdateParameter (fun _ _ _ => true)
        (fun _ => (0 : Fin 70)) ["a:x", "bad", "a:y"] "database_host"
        (YVal.s "db1")).results "bad" = some false
    ∧ (SSHManager.bulkUpdateParameter (fun _ _ _ => true)
        (fun _ => (0 : Fin 70)) ["a:x", "bad", "a:y"] "database_host"
        (YVal.s "db1")).invocations.length
      = (["a:x", "bad", "a:y"].countP (fun t => (splitColon t).isSome))
    ∧ getKey (SSHManager.bulkUpdateParameter (fun _ _ _ => true)
        (fun _ => (0 : Fin 70)) ["a:x", "bad", "a:y"] "database_host"
        (YVal.s "db1")).results "a:x"
      = getKey (SSHManager.bulkUpdateParameter (fun sv cu _ => sv == "a" && cu == "x")
        (fun _ => (0 : Fin 70)) ["a:x", "bad", "a:y"] "database_host"
        (YVal.s "db1")).results "a:x")
    ∧ ((getKey (SSHManager.applyBulkTemplate ⟨[("t1", [("k", YVal.s "v")])]⟩
        (fun _ _ _ => true) (fun _ => (0 : Fin 70)) "t1"
        ["a:x", "bad", "a:y"]).results "a:y").isSome
    ∧ getKey (SSHManager.applyBulkTemplate ⟨[("t1", [("k", YVal.s "v")])]⟩
        (fun _ _ _ => true) (fun _ => (0 : Fin 70)) "t1"
        ["a:x", "bad", "a:y"]).results "bad" = some false
    ∧ (SSHManager.applyBulkTemplate ⟨[("t1", [("k", YVal.s "v")])]⟩
        (fun _ _ _ => true) (fun _ => (0 : Fin 70)) "t1"
        ["a:x", "bad", "a:y"]).invocations.length
      = (["a:x", "bad", "a:y"].countP (fun t => (splitColon t).isSome))
    ∧ getKey (SSHManager.applyBulkTemplate ⟨[("t1", [("k", YVal.s "v")])]⟩
        (fun _ _ _ => true) (fun _ => (0 : Fin 70)) "t1"
        ["a:x", "bad", "a:y"]).results "a:x"
      = getKey (SSHManager.applyBulkTemplate ⟨[("t1", [("k", YVal.s "v")])]⟩
        (fun sv cu _ => sv == "a" && cu == "x") (fun _ => (0 : Fin 70)) "t1"
        ["a:x", "bad", "a:y"]).results "a:x") := by
  have hw := spec_c9_fanout (fun _ _ _ => true) (fun sv cu _ => sv == "a" && cu == "x")
    (fun _ => (0 : Fin 70)) ["a:x", "bad", "a:y"] "database_host"
    (YVal.s "db1") ⟨[("t1", [("k", YVal.s "v")])]⟩ "t1" [("k", YVal.s "v")]
    "a:y" "bad" "a:x" "a" "x" (by decide) (by decide) rfl rfl
    (fun _ => rfl) rfl
  exact hw

namespace SSHManager

theorem generateSecret_length (choice : Nat → Fin 70) (pos len : Nat) :
    (generateSecret choice pos len).length = len := by
  unfold generateSecret
  rw [show ∀ l : List Char, (List.asString l).length = l.length
    from fun l => rfl]
  simp

theorem bulkSecret_invocations
    (pipe : String → String → List (String × YVal) → Bool)
    (choice : Nat → Fin 70) (targets : List String) :
    (bulkUpdateParameter pipe choice targets "secret"
      (YVal.s "GENERATE_NEW")).invocations
      = invSpec (fun pos => [("secret", YVal.s (generateSecret choice pos 32))])
          (fun pos => pos + 32) 0 targets := by
  have hcond : (isGenerateNew (YVal.s "GENERATE_NEW")
      && "secret" == "secret") = true := rfl
  simp only [bulkUpdateParameter, hcond, if_true]
  rw [fanOutGo_snd_eq]
  simp

theorem tmpl_invocations (cfg : BulkConfig)
    (pipe : String → String → List (String × YVal) → Bool)
    (choice : Nat → Fin 70) (templateName : String)
    (targets : List String) (tparams : List (String × YVal))
    (htmpl : getKey cfg.templates templateName = some tparams) :
    (applyBulkTemplate cfg pipe choice templateName targets).invocations
      = invSpec (fun pos => (expandParams choice pos tparams).1)
          (fun pos => (expandParams choice pos tparams).2) 0 targets := by
  simp only [applyBulkTemplate, htmpl]
  rw [fanOutGo_snd_eq]
  simp

theorem tmpl_adv_eq (choice : Nat → Fin 70)
    (tparams : List (String × YVal)) (hone : gnCount tparams = 1) :
    (fun pos => (expandParams choice pos tparams).2)
      = fun pos => pos + 32 := by
  funext pos
  rw [expandParams_snd, hone]

end SSHManager

/-- C6: in a bulk operation carrying GENERATE_NEW under the key secret,
every recorded pipeline invocation hands its target a parameter set
whose secret is this target's own generate_secret draw of 32 characters
(the i-th well-formed target consumes the i-th fresh block of the secure
random stream, so draws are never shared or reused across targets), and
two distinct targets whose blocks the secure source did not collide on
receive distinct values, in bulk_update_parameter and in
apply_bulk_template alike. -/
theorem spec_c6_secret_uniqueness
    (pipe : String → String → List (String × YVal) → Bool)
    (choice : Nat → Fin 70) (targets : List String)
    (cfg : SSHManager.BulkConfig) (templateName : String)
    (tparams : List (String × YVal)) (i j : Nat)
    (hfresh : SSHManager.generateSecret choice (32 * i) 32
      ≠ SSHManager.generateSecret choice (32 * j) 32)
    (hi : i < (SSHManager.bulkUpdateParameter pipe choice targets "secret"
        (YVal.s "GENERATE_NEW")).invocations.length)
    (hj : j < (SSHManager.bulkUpdateParameter pipe choice targets "secret"
        (YVal.s "GENERATE_NEW")).invocations.length)
    (htmpl : getKey cfg.templates templateName = some tparams)
    (hsec : getKey tparams "secret" = some (YVal.s "GENERATE_NEW"))
    (hone : SSHManager.gnCount tparams = 1)
    (hi' : i < (SSHManager.applyBulkTemplate cfg pipe choice templateName
        targets).invocations.length)
    (hj' : j < (SSHManager.applyBulkTemplate cfg pipe choice templateName
        targets).invocations.length) :
    (∃ sv cu sv' cu',
      (SSHManager.bulkUpdateParameter pipe choice targets "secret"
          (YVal.s "GENERATE_NEW")).invocations.get? i
        = some (sv, cu, [("secret",
            YVal.s (SSHManager.generateSecret choice (32 * i) 32))])
      ∧ (SSHManager.bulkUpdateParameter pipe choice targets "secret"
          (YVal.s "GENERATE_NEW")).invocations.get? j
        = some (sv', cu', [("secret",
            YVal.s (SSHManager.generateSecret choice (32 * j) 32))]))
    ∧ (SSHManager.generateSecret choice (32 * i) 32).length = 32
    ∧ SSHManager.generateSecret choice (32 * i) 32
        ≠ SSHManager.generateSecret choice (32 * j) 32
    ∧ (∃ pi pj : SSHManager.Invocation,
        (SSHManager.applyBulkTemplate cfg pipe choice templateName
          targets).invocations.get? i = some pi
        ∧ (SSHManager.applyBulkTemplate cfg pipe choice templateName
          targets).invocations.get? j = some pj
        ∧ getKey pi.2.2 "secret"
          = some (YVal.s (SSHManager.generateSecret choice (32 * i) 32))
        ∧ getKey pj.2.2 "secret"
          = some (YVal.s (SSHManager.generateSecret choice (32 * j) 32))
        ∧ getKey pi.2.2 "secret" ≠ getKey pj.2.2 "secret") := by
  have hinv := SSHManager.bulkSecret_invocations pipe choice targets
  rw [hinv] at hi hj
  obtain ⟨t1, sv, cu, _, _, hget_i⟩ :=
    SSHManager.invSpec_get? _ _ targets 0 i hi
  obtain ⟨t2, sv', cu', _, _, hget_j⟩ :=
    SSHManager.invSpec_get? _ _ targets 0 j hj
  have hiter : ∀ n : Nat, (fun pos => pos + 32)^[n] 0 = 32 * n := by
    intro n
    rw [SSHManager.iterate_add_const 32 n 0]
    omega
  rw [hiter] at hget_i hget_j
  have hinv2 := SSHManager.tmpl_invocations cfg pipe choice templateName
    targets tparams htmpl
  rw [SSHManager.tmpl_adv_eq choice tparams hone] at hinv2
  rw [hinv2] at hi' hj'
  obtain ⟨u1, sw, dw, _, _, hgt_i⟩ :=
    SSHManager.invSpec_get? _ _ targets 0 i hi'
  obtain ⟨u2, sw', dw', _, _, hgt_j⟩ :=
    SSHManager.invSpec_get? _ _ targets 0 j hj'
  rw [hiter] at hgt_i hgt_j
  have hsome_ne :
      some (YVal.s (SSHManager.generateSecret choice (32 * i) 32))
        ≠ some (YVal.s (SSHManager.generateSecret choice (32 * j) 32)) := by
    intro h
    apply hfresh
    injection h with h1
    injection h1 with h2
  refine ⟨⟨sv, cu, sv', cu', ?_, ?_⟩,
    SSHManager.generateSecret_length choice (32 * i) 32, hfresh,
    ⟨(sw, dw, (SSHManager.expandParams choice (32 * i) tparams).1),
      (sw', dw', (SSHManager.expandParams choice (32 * j) tparams).1),
      ?_, ?_, ?_, ?_, ?_⟩⟩
  · rw [hinv]; exact hget_i
  · rw [hinv]; exact hget_j
  · rw [hinv2]; exact hgt_i
  · rw [hinv2]; exact hgt_j
  · exact SSHManager.expandParams_secret choice tparams (32 * i) hsec
  · exact SSHManager.expandParams_secret choice tparams (32 * j) hsec
  · rw [SSHManager.expandParams_secret choice tparams (32 * i) hsec,
      SSHManager.expandParams_secret choice tparams (32 * j) hsec]
    exact hsome_ne

/-- C6 witness: a concrete two-target bulk secret rotation where the
stream blocks differ, instantiating the uniqueness theorem. -/
theorem spec_c6_secret_uniqueness_witness :
    ∃ sv cu sv' cu',
      (SSHManager.bulkUpdateParameter (fun _ _ _ => true)
        (fun n => (n : Fin 70)) ["a:x", "a:y"] "secret"
        (YVal.s "GENERATE_NEW")).invocations.get? 0
        = some (sv, cu, [("secret", YVal.s (SSHManager.generateSecret
            (fun n => (n : Fin 70)) (32 * 0) 32))])
      ∧ (SSHManager.bulkUpdateParameter (fun _ _ _ => true)
        (fun n => (n : Fin 70)) ["a:x", "a:y"] "secret"
        (YVal.s "GENERATE_NEW")).invocations.get? 1
        = some (sv', cu', [("secret", YVal.s (SSHManager.generateSecret
            (fun n => (n : Fin 70)) (32 * 1) 32))]) :=
  (spec_c6_secret_uniqueness (fun _ _ _ => true) (fun n => (n : Fin 70))
    ["a:x", "a:y"] ⟨[("t1", [("secret", YVal.s "GENERATE_NEW")])]⟩ "t1"
    [("secret", YVal.s "GENERATE_NEW")] 0 1 (by decide) (by decide)
    (by decide) rfl rfl rfl (by decide) (by decide)).1
